import Mathlib

/-!
# go-crud-app: an in-memory book store behind an HTTP handler layer

Shallow embedding of `main.go`.

* Go `string` values are Lean `String`s.
* The slice `[]Book` is a `List Book`; the process-wide `bookStore` is passed
  explicitly through every operation.
* A Go `error` is an `Option String`: `none` is `nil`, `some msg` is
  `errors.New(msg)` (so `err.Error()` and `%v` both give `msg`).
* `json.Marshal v` is kept as the value `v` that was marshalled (`Json`), and
  the response body is the list of chunks handed to `w.Write`.
* `log.Printf` output is not part of the modelled state.
-/

namespace GoCrudApp

/-! ## Data model -/

/-- The `Resp` struct (fields `Message`, `Error`). -/
structure Resp where
  Message : String
  Error : String
deriving DecidableEq, Repr

/-- The `Book` struct. -/
structure Book where
  Id : String
  Author : String
  Name : String
deriving DecidableEq, Repr

/-- The `BookStore` struct: the ordered sequence of books. -/
structure BookStore where
  books : List Book
deriving DecidableEq, Repr

/-- The initial value of the global `bookStore`: `make([]Book, 0)`. -/
def bookStore : BookStore := { books := [] }

/-- A Go `error` value: `none` is `nil`, `some msg` carries `err.Error()`. -/
abbrev GoError := Option String

/-! ## Store operations -/

/-- The `for _, book := range s.books` loop of `FindBookById`. -/
def FindBookById.loop (id : String) : List Book → Option Book
  | [] => none
  | book :: rest => if book.Id = id then some book else FindBookById.loop id rest

/-- `func (s BookStore) FindBookById(id string) *Book`; `none` is the nil pointer. -/
def FindBookById (s : BookStore) (id : String) : Option Book :=
  FindBookById.loop id s.books

/-- `func (s BookStore) GetBooks() []Book`. -/
def GetBooks (s : BookStore) : List Book := s.books

/-- The `for i, bk := range s.books` loop of `UpdateBook`: `i` is the loop index and the
list argument holds the records from index `i` on. -/
def UpdateBook.loop (s : BookStore) (book : Book) : Nat → List Book → BookStore × GoError
  | _, [] => (s, some ("Book with id " ++ book.Id ++ " not found"))
  | i, bk :: rest =>
    if bk.Id = book.Id then
      ({ books := s.books.set i book }, none)
    else
      UpdateBook.loop s book (i + 1) rest

/-- `func (s *BookStore) UpdateBook(book Book) error`: the store after the call and the
returned error. -/
def UpdateBook (s : BookStore) (book : Book) : BookStore × GoError :=
  UpdateBook.loop s book 0 s.books

/-- The `for i, bk := range s.books` loop of `DeleteBook`; on a match the store becomes
`append(s.books[:i], s.books[i+1:]...)`. -/
def DeleteBook.loop (s : BookStore) (id : String) : Nat → List Book → BookStore × GoError
  | _, [] => (s, some ("Book with id " ++ id ++ " not found"))
  | i, bk :: rest =>
    if bk.Id = id then
      ({ books := s.books.take i ++ s.books.drop (i + 1) }, none)
    else
      DeleteBook.loop s id (i + 1) rest

/-- `func (s *BookStore) DeleteBook(id string) error`. -/
def DeleteBook (s : BookStore) (id : String) : BookStore × GoError :=
  DeleteBook.loop s id 0 s.books

/-- `func (s *BookStore) AddBook(book Book) error`. -/
def AddBook (s : BookStore) (book : Book) : BookStore × GoError :=
  match FindBookById s book.Id with
  | some _ => (s, some ("Book with id " ++ book.Id ++ " already exists"))
  | none => ({ books := s.books ++ [book] }, none)

/-! ## HTTP layer -/

/-- A value handed to `json.Marshal`; the encoder is injective on these, so the response
body is recorded as the marshalled value. -/
inductive Json where
  | str (s : String)
  | book (b : Book)
  | books (bs : List Book)
  | resp (r : Resp)
deriving DecidableEq, Repr

/-- The parts of `*http.Request` the handlers read. `Body` is the outcome of
`json.NewDecoder(r.Body).Decode(&book)`: the decoded book, or the decode error's text. -/
structure Request where
  Method : String
  Path : String
  Body : Except String Book

/-- The state of an `http.ResponseWriter`: headers set, the status line once written, and
the chunks written to the body, oldest first. -/
structure ResponseWriter where
  header : List (String × String)
  status : Option Nat
  body : List Json
deriving DecidableEq, Repr

/-- A response writer nothing has been written to. -/
def ResponseWriter.fresh : ResponseWriter := { header := [], status := none, body := [] }

/-- `w.Header().Set(key, value)`. -/
def ResponseWriter.SetHeader (w : ResponseWriter) (key value : String) : ResponseWriter :=
  { w with header := (key, value) :: w.header.filter (fun kv => kv.1 ≠ key) }

/-- `w.WriteHeader(code)`: only the first status written counts. -/
def ResponseWriter.WriteHeader (w : ResponseWriter) (code : Nat) : ResponseWriter :=
  match w.status with
  | some _ => w
  | none => { w with status := some code }

/-- `w.Write(data)`: writes status 200 first when no status was written yet. -/
def ResponseWriter.Write (w : ResponseWriter) (data : Json) : ResponseWriter :=
  let w1 := w.WriteHeader 200
  { w1 with body := w1.body ++ [data] }

def StatusOK : Nat := 200
def StatusBadRequest : Nat := 400
def StatusNotFound : Nat := 404

/-- `strings.Replace(s, old, new, 1)` on character lists: the leftmost occurrence of `old`
is replaced by `new`; without an occurrence the input is returned. -/
def stringsReplaceFirst.go (old new : List Char) : List Char → List Char
  | [] => if old = [] then new else []
  | c :: cs =>
    if old.isPrefixOf (c :: cs) then new ++ (c :: cs).drop old.length
    else c :: stringsReplaceFirst.go old new cs

/-- `strings.Replace(s, old, new, 1)`. -/
def stringsReplaceFirst (s old new : String) : String :=
  String.mk (stringsReplaceFirst.go old.data new.data s.data)

/-- A handler: reads the request, may change the store and the response writer. -/
abbrev HandlerFunc := BookStore → ResponseWriter → Request → BookStore × ResponseWriter

/-- `func helloHandler`. -/
def helloHandler : HandlerFunc := fun s w _ =>
  let resp : Resp := { Message := "hello", Error := "" }
  let w := w.WriteHeader StatusOK
  (s, w.Write (Json.resp resp))

/-- `func booksHandler`. -/
def booksHandler : HandlerFunc := fun s w _ =>
  let w := w.WriteHeader StatusOK
  (s, w.Write (Json.books (GetBooks s)))

/-- `func handleGetBook`. -/
def handleGetBook : HandlerFunc := fun s w r =>
  let id := stringsReplaceFirst r.Path "/book/" ""
  match FindBookById s id with
  | none =>
    let w := w.WriteHeader StatusNotFound
    (s, w.Write (Json.str ("Book with id " ++ id ++ " not found")))
  | some book =>
    let w := w.WriteHeader StatusOK
    (s, w.Write (Json.book book))

/-- `func handleDeleteBook`. -/
def handleDeleteBook : HandlerFunc := fun s w r =>
  let id := stringsReplaceFirst r.Path "/book/" ""
  let resp : Resp := { Message := "", Error := "" }
  match DeleteBook s id with
  | (s, some err) =>
    let w := w.WriteHeader StatusBadRequest
    let resp := { resp with Error := err }
    (s, w.Write (Json.resp resp))
  | (s, none) => booksHandler s w r

/-- `func handleUpdateBook`. -/
def handleUpdateBook : HandlerFunc := fun s w r =>
  let id := stringsReplaceFirst r.Path "/book/" ""
  match r.Body with
  | .error err =>
    let w := w.WriteHeader StatusBadRequest
    (s, w.Write (Json.str ("Bad request. " ++ err)))
  | .ok book =>
    let book := { book with Id := id }
    match UpdateBook s book with
    | (s, some err) =>
      let w := w.WriteHeader StatusBadRequest
      (s, w.Write (Json.str err))
    | (s, none) => handleGetBook s w r

/-- `func handleAddBook`. -/
def handleAddBook : HandlerFunc := fun s w r =>
  match r.Body with
  | .error err =>
    let w := w.WriteHeader StatusBadRequest
    (s, w.Write (Json.str ("Bad request. " ++ err)))
  | .ok book =>
    match AddBook s book with
    | (s, some err) =>
      let w := w.WriteHeader StatusBadRequest
      (s, w.Write (Json.str ("Bad request. " ++ err)))
    | (s, none) => booksHandler s w r

/-- `func bookHandler`: dispatch on the request method. -/
def bookHandler : HandlerFunc := fun s w r =>
  if r.Method = "GET" then handleGetBook s w r
  else if r.Method = "POST" then handleAddBook s w r
  else if r.Method = "DELETE" then handleDeleteBook s w r
  else if r.Method = "PUT" then handleUpdateBook s w r
  else (s, w)

/-- `func Logger`: sets the content type, then runs `next`. -/
def Logger (next : HandlerFunc) : HandlerFunc := fun s w r =>
  let w := w.SetHeader "Content-Type" "application/json"
  next s w r

/-- `strings.HasPrefix(path, pattern)`. -/
def pathStartsWith (path pattern : String) : Bool :=
  pattern.data.isPrefixOf path.data

/-- `strings.Split(path, "/")` on character lists: the pieces of a path between its
slashes. -/
def pathPieces : List Char → List (List Char)
  | [] => [[]]
  | c :: cs =>
    match pathPieces cs with
    | [] => [[]]
    | p :: ps => if c = '/' then [] :: p :: ps else (c :: p) :: ps

/-- The pieces after the leading slash of a path that `cleanPath` of `net/http` returns
unchanged: none is `.` or `..`, and none but the last is empty. -/
def cleanPieces : List (List Char) → Bool
  | [] => false
  | [last] => last != ['.'] && last != ['.', '.']
  | p :: rest => p != [] && p != ['.'] && p != ['.', '.'] && cleanPieces rest

/-- Whether `cleanPath(path) == path` for the `cleanPath` of `net/http`: the path starts
with a slash and has no `//`, no `.` element and no `..` element. -/
def isCleanPath (path : String) : Bool :=
  match pathPieces path.data with
  | [] :: rest => cleanPieces rest
  | _ => false

/-- The `ServeMux` that `main` builds with its three `HandleFunc` calls: the registered
handler the mux runs for a request method and path (the decoded `r.URL.Path`), `none` when
the mux answers by itself and runs none of them. The mux runs no registered handler when the
path is not in cleaned form (it redirects to the cleaned path; only CONNECT requests are not
cleaned), and when no registered pattern matches. Otherwise a pattern equal to the path
comes first, then the longest pattern ending in `/` that the path starts with. -/
def handler (method path : String) : Option HandlerFunc :=
  if method ≠ "CONNECT" ∧ isCleanPath path = false then none
  else if path = "/hello" then some (Logger helloHandler)
  else if path = "/book/" then some (Logger bookHandler)
  else if path = "/books/" then some (Logger booksHandler)
  else if pathStartsWith path "/books/" then some (Logger booksHandler)
  else if pathStartsWith path "/book/" then some (Logger bookHandler)
  else none

/-- One request served by the mux against the store, with a response writer nothing was
written to; `none` when the mux answers by itself, which leaves the store untouched. -/
def serve (s : BookStore) (r : Request) : Option (BookStore × ResponseWriter) :=
  (handler r.Method r.Path).map (fun h => h s ResponseWriter.fresh r)

/-! ## Specification vocabulary -/

/-- No two records of the store share an id. -/
def UniqueIds (s : BookStore) : Prop :=
  s.books.Pairwise (fun a b => a.Id ≠ b.Id)

instance (s : BookStore) : Decidable (UniqueIds s) := by
  unfold UniqueIds; infer_instance

/-- Some record of the store has the given id. -/
def HasId (s : BookStore) (id : String) : Prop :=
  ∃ bk ∈ s.books, bk.Id = id

instance (s : BookStore) (id : String) : Decidable (HasId s id) := by
  unfold HasId; infer_instance

/-- One call of a mutating store operation. -/
inductive StoreOp where
  | add (book : Book)
  | update (book : Book)
  | delete (id : String)

/-- The store after one operation (its error result dropped). -/
def StoreOp.apply (s : BookStore) : StoreOp → BookStore
  | .add book => (AddBook s book).1
  | .update book => (UpdateBook s book).1
  | .delete id => (DeleteBook s id).1

/-- The store after a sequence of operations, run left to right. -/
def runOps (s : BookStore) (ops : List StoreOp) : BookStore :=
  ops.foldl StoreOp.apply s

/-- The index of the first record with the given id (the list length when there is none). -/
def firstIndexOf (id : String) : List Book → Nat
  | [] => 0
  | bk :: rest => if bk.Id = id then 0 else firstIndexOf id rest + 1

/-- Naive shift-left removal at index `i`, as a specification: the records before `i` stay,
every record after `i` moves one place to the left, and the sequence gets one shorter. -/
def shiftLeftRemove : List Book → Nat → List Book
  | [], _ => []
  | _ :: rest, 0 => rest
  | bk :: rest, i + 1 => bk :: shiftLeftRemove rest i

/-! ## Loop lemmas -/

/-- Either no record has the id, or the list splits at its first record with the id. -/
theorem split_at_first_id (id : String) (l : List Book) :
    (∀ x ∈ l, x.Id ≠ id) ∨
      ∃ mid bk tail, l = mid ++ bk :: tail ∧ (∀ x ∈ mid, x.Id ≠ id) ∧ bk.Id = id := by
  induction l with
  | nil => left; simp
  | cons a l ih =>
    by_cases ha : a.Id = id
    · right; exact ⟨[], a, l, by simp, by simp, ha⟩
    · rcases ih with h | ⟨mid, bk, tail, hl, hmid, hbk⟩
      · left
        intro x hx
        rcases List.mem_cons.mp hx with rfl | hx
        · exact ha
        · exact h x hx
      · right
        refine ⟨a :: mid, bk, tail, by simp [hl], ?_, hbk⟩
        intro x hx
        rcases List.mem_cons.mp hx with rfl | hx
        · exact ha
        · exact hmid x hx

theorem findLoop_eq_none_iff (id : String) (l : List Book) :
    FindBookById.loop id l = none ↔ ∀ x ∈ l, x.Id ≠ id := by
  induction l with
  | nil => simp [FindBookById.loop]
  | cons a l ih =>
    by_cases ha : a.Id = id
    · simp [FindBookById.loop, ha]
    · simp [FindBookById.loop, ha, ih]

theorem findLoop_first (id : String) (mid : List Book) (bk : Book) (tail : List Book)
    (hmid : ∀ x ∈ mid, x.Id ≠ id) (hbk : bk.Id = id) :
    FindBookById.loop id (mid ++ bk :: tail) = some bk := by
  induction mid with
  | nil => simp [FindBookById.loop, hbk]
  | cons a mid ih =>
    have ha : a.Id ≠ id := hmid a (List.mem_cons_self _ _)
    have := ih (fun x hx => hmid x (List.mem_cons_of_mem _ hx))
    simp [FindBookById.loop, ha, this]

theorem updateLoop_none (s : BookStore) (book : Book) (i : Nat) (l : List Book)
    (h : ∀ x ∈ l, x.Id ≠ book.Id) :
    UpdateBook.loop s book i l = (s, some ("Book with id " ++ book.Id ++ " not found")) := by
  induction l generalizing i with
  | nil => simp [UpdateBook.loop]
  | cons a l ih =>
    have ha : a.Id ≠ book.Id := h a (List.mem_cons_self _ _)
    simp [UpdateBook.loop, ha, ih (i + 1) (fun x hx => h x (List.mem_cons_of_mem _ hx))]

theorem updateLoop_first (s : BookStore) (book : Book) (i : Nat) (mid : List Book) (bk : Book)
    (tail : List Book) (hmid : ∀ x ∈ mid, x.Id ≠ book.Id) (hbk : bk.Id = book.Id) :
    UpdateBook.loop s book i (mid ++ bk :: tail)
      = ({ books := s.books.set (i + mid.length) book }, none) := by
  induction mid generalizing i with
  | nil => simp [UpdateBook.loop, hbk]
  | cons a mid ih =>
    have ha : a.Id ≠ book.Id := hmid a (List.mem_cons_self _ _)
    have e : i + 1 + mid.length = i + (mid.length + 1) := by omega
    have := ih (i + 1) (fun x hx => hmid x (List.mem_cons_of_mem _ hx))
    simp [UpdateBook.loop, ha, this, e]

theorem deleteLoop_none (s : BookStore) (id : String) (i : Nat) (l : List Book)
    (h : ∀ x ∈ l, x.Id ≠ id) :
    DeleteBook.loop s id i l = (s, some ("Book with id " ++ id ++ " not found")) := by
  induction l generalizing i with
  | nil => simp [DeleteBook.loop]
  | cons a l ih =>
    have ha : a.Id ≠ id := h a (List.mem_cons_self _ _)
    simp [DeleteBook.loop, ha, ih (i + 1) (fun x hx => h x (List.mem_cons_of_mem _ hx))]

theorem deleteLoop_first (s : BookStore) (id : String) (i : Nat) (mid : List Book) (bk : Book)
    (tail : List Book) (hmid : ∀ x ∈ mid, x.Id ≠ id) (hbk : bk.Id = id) :
    DeleteBook.loop s id i (mid ++ bk :: tail)
      = ({ books := s.books.take (i + mid.length) ++ s.books.drop (i + mid.length + 1) },
          none) := by
  induction mid generalizing i with
  | nil => simp [DeleteBook.loop, hbk]
  | cons a mid ih =>
    have ha : a.Id ≠ id := hmid a (List.mem_cons_self _ _)
    have e : i + 1 + mid.length = i + (mid.length + 1) := by omega
    have := ih (i + 1) (fun x hx => hmid x (List.mem_cons_of_mem _ hx))
    simp [DeleteBook.loop, ha, this, e]

/-- `UpdateBook` when no record has the book's id. -/
theorem UpdateBook_absent (s : BookStore) (book : Book) (h : ¬ HasId s book.Id) :
    UpdateBook s book = (s, some ("Book with id " ++ book.Id ++ " not found")) := by
  apply updateLoop_none
  intro x hx hid
  exact h ⟨x, hx, hid⟩

/-- `UpdateBook` when the store splits at the first record with the book's id. -/
theorem UpdateBook_split (book : Book) (mid : List Book) (bk : Book) (tail : List Book)
    (hmid : ∀ x ∈ mid, x.Id ≠ book.Id) (hbk : bk.Id = book.Id) :
    UpdateBook { books := mid ++ bk :: tail } book
      = ({ books := (mid ++ bk :: tail).set mid.length book }, none) := by
  have := updateLoop_first { books := mid ++ bk :: tail } book 0 mid bk tail hmid hbk
  simpa [UpdateBook] using this

theorem set_at_split (mid : List Book) (bk book : Book) (tail : List Book) :
    (mid ++ bk :: tail).set mid.length book = mid ++ book :: tail := by
  induction mid with
  | nil => simp
  | cons a mid ih => simp [ih]

/-- `DeleteBook` when no record has the id. -/
theorem DeleteBook_absent (s : BookStore) (id : String) (h : ¬ HasId s id) :
    DeleteBook s id = (s, some ("Book with id " ++ id ++ " not found")) := by
  apply deleteLoop_none
  intro x hx hid
  exact h ⟨x, hx, hid⟩

/-- `DeleteBook` when the store splits at the first record with the id. -/
theorem DeleteBook_split (id : String) (mid : List Book) (bk : Book) (tail : List Book)
    (hmid : ∀ x ∈ mid, x.Id ≠ id) (hbk : bk.Id = id) :
    DeleteBook { books := mid ++ bk :: tail } id = ({ books := mid ++ tail }, none) := by
  have := deleteLoop_first { books := mid ++ bk :: tail } id 0 mid bk tail hmid hbk
  simpa [DeleteBook] using this

/-- A store either lacks the id or splits at its first record with the id. -/
theorem store_cases (s : BookStore) (id : String) :
    ¬ HasId s id ∨
      ∃ mid bk tail, s = { books := mid ++ bk :: tail } ∧ (∀ x ∈ mid, x.Id ≠ id) ∧ bk.Id = id := by
  rcases split_at_first_id id s.books with h | ⟨mid, bk, tail, hl, hmid, hbk⟩
  · left
    rintro ⟨x, hx, hid⟩
    exact h x hx hid
  · right
    refine ⟨mid, bk, tail, ?_, hmid, hbk⟩
    cases s
    simp_all

theorem hasId_of_split (id : String) (mid : List Book) (bk : Book) (tail : List Book)
    (hbk : bk.Id = id) : HasId { books := mid ++ bk :: tail } id :=
  ⟨bk, by simp, hbk⟩

/-- `AddBook` when the id is already present. -/
theorem AddBook_present (s : BookStore) (book : Book) (h : HasId s book.Id) :
    AddBook s book = (s, some ("Book with id " ++ book.Id ++ " already exists")) := by
  unfold AddBook FindBookById
  cases hf : FindBookById.loop book.Id s.books with
  | some _ => rfl
  | none =>
    obtain ⟨x, hx, hid⟩ := h
    exact absurd hid ((findLoop_eq_none_iff _ _).mp hf x hx)

/-- `AddBook` when the id is fresh. -/
theorem AddBook_fresh (s : BookStore) (book : Book) (h : ¬ HasId s book.Id) :
    AddBook s book = ({ books := s.books ++ [book] }, none) := by
  have hf : FindBookById.loop book.Id s.books = none :=
    (findLoop_eq_none_iff _ _).mpr (fun x hx hid => h ⟨x, hx, hid⟩)
  simp [AddBook, FindBookById, hf]

/-! ## Uniqueness of ids -/

theorem UniqueIds_AddBook (s : BookStore) (book : Book) (h : UniqueIds s) :
    UniqueIds (AddBook s book).1 := by
  by_cases hp : HasId s book.Id
  · rw [AddBook_present s book hp]; exact h
  · rw [AddBook_fresh s book hp]
    unfold UniqueIds at *
    simp only [List.pairwise_append, List.pairwise_cons, List.mem_singleton]
    refine ⟨h, ⟨by simp, List.Pairwise.nil⟩, ?_⟩
    rintro a ha b rfl hid
    exact hp ⟨a, ha, hid⟩

theorem UniqueIds_UpdateBook (s : BookStore) (book : Book) (h : UniqueIds s) :
    UniqueIds (UpdateBook s book).1 := by
  rcases store_cases s book.Id with hp | ⟨mid, bk, tail, rfl, hmid, hbk⟩
  · rw [UpdateBook_absent s book hp]; exact h
  · rw [UpdateBook_split book mid bk tail hmid hbk, set_at_split]
    unfold UniqueIds at *
    simp only [List.pairwise_append, List.pairwise_cons, List.mem_cons] at *
    obtain ⟨h1, ⟨h2, h3⟩, h4⟩ := h
    refine ⟨h1, ⟨?_, h3⟩, ?_⟩
    · intro a ha; rw [← hbk]; exact h2 a ha
    · rintro a ha b (rfl | hb)
      · rw [← hbk]; exact h4 a ha bk (Or.inl rfl)
      · exact h4 a ha b (Or.inr hb)

theorem UniqueIds_DeleteBook (s : BookStore) (id : String) (h : UniqueIds s) :
    UniqueIds (DeleteBook s id).1 := by
  rcases store_cases s id with hp | ⟨mid, bk, tail, rfl, hmid, hbk⟩
  · rw [DeleteBook_absent s id hp]; exact h
  · rw [DeleteBook_split id mid bk tail hmid hbk]
    unfold UniqueIds at *
    exact h.sublist (by simp)

theorem UniqueIds_apply (s : BookStore) (op : StoreOp) (h : UniqueIds s) :
    UniqueIds (StoreOp.apply s op) := by
  cases op with
  | add book => exact UniqueIds_AddBook s book h
  | update book => exact UniqueIds_UpdateBook s book h
  | delete id => exact UniqueIds_DeleteBook s id h

theorem UniqueIds_runOps (ops : List StoreOp) (s : BookStore) (h : UniqueIds s) :
    UniqueIds (runOps s ops) := by
  induction ops generalizing s with
  | nil => exact h
  | cons op ops ih => exact ih _ (UniqueIds_apply s op h)

/-- C1: id uniqueness is an invariant of the store. If no two records of `s` share an id,
then after any `AddBook`, `UpdateBook` or `DeleteBook` call, whether it succeeds or fails,
still no two records share an id; hence every store reached from the initial empty store
by any sequence of these operations holds at most one book per id. -/
theorem C1_unique_ids_invariant (s : BookStore) (h : UniqueIds s) :
    (∀ book, UniqueIds (AddBook s book).1) ∧
    (∀ book, UniqueIds (UpdateBook s book).1) ∧
    (∀ id, UniqueIds (DeleteBook s id).1) ∧
    (∀ ops, UniqueIds (runOps bookStore ops) ∧
      ∀ id, ((runOps bookStore ops).books.filter (fun bk => bk.Id = id)).length ≤ 1) := by
  refine ⟨fun b => UniqueIds_AddBook s b h, fun b => UniqueIds_UpdateBook s b h,
    fun id => UniqueIds_DeleteBook s id h, fun ops => ?_⟩
  have hu : UniqueIds (runOps bookStore ops) := UniqueIds_runOps ops bookStore List.Pairwise.nil
  refine ⟨hu, fun id => ?_⟩
  have key : ∀ l : List Book, l.Pairwise (fun a b => a.Id ≠ b.Id) →
      (l.filter (fun bk => bk.Id = id)).length ≤ 1 := by
    intro l hl
    induction l with
    | nil => simp
    | cons a l ih =>
      rw [List.pairwise_cons] at hl
      by_cases ha : a.Id = id
      · have : l.filter (fun bk => bk.Id = id) = [] := by
          rw [List.filter_eq_nil_iff]
          intro x hx
          have := hl.1 x hx
          simp only [decide_eq_true_eq]
          intro hxid
          exact this (ha.trans hxid.symm)
        simp [List.filter_cons, ha, this]
      · simpa [List.filter_cons, ha] using ih hl.2
  exact key _ hu

/-- Witness for C1 on a two-book store. -/
theorem C1_unique_ids_invariant_witness :
    UniqueIds { books := [⟨"1", "A", "N"⟩, ⟨"2", "B", "M"⟩] } ∧
    UniqueIds (UpdateBook { books := [⟨"1", "A", "N"⟩, ⟨"2", "B", "M"⟩] } ⟨"2", "X", "Y"⟩).1 :=
  ⟨by decide, (C1_unique_ids_invariant _ (by decide)).2.1 _⟩

/-! ## Store contracts -/

theorem getElem?_at_split (mid : List Book) (bk : Book) (tail : List Book) :
    (mid ++ bk :: tail)[mid.length]? = some bk := by
  induction mid with
  | nil => simp
  | cons a mid ih => simpa using ih

/-- C2: in a store where no two records share an id, `DeleteBook` of a present id succeeds,
leaves exactly one record fewer, and `FindBookById` of that id on the result is
not-found. -/
theorem C2_delete_present (s : BookStore) (id : String) (hu : UniqueIds s) (hp : HasId s id) :
    (DeleteBook s id).2 = none ∧
    (DeleteBook s id).1.books.length + 1 = s.books.length ∧
    FindBookById (DeleteBook s id).1 id = none := by
  rcases store_cases s id with hn | ⟨mid, bk, tail, rfl, hmid, hbk⟩
  · exact absurd hp hn
  · rw [DeleteBook_split id mid bk tail hmid hbk]
    refine ⟨rfl, by simp; omega, ?_⟩
    unfold UniqueIds at hu
    simp only [List.pairwise_append, List.pairwise_cons] at hu
    apply (findLoop_eq_none_iff _ _).mpr
    intro x hx hid
    rcases List.mem_append.mp hx with hx | hx
    · exact hmid x hx hid
    · exact hu.2.1.1 x hx (hbk.trans hid.symm)

/-- Witness for C2: deleting id "1" from a two-book store. -/
theorem C2_delete_present_witness :
    (DeleteBook { books := [⟨"1", "A", "N"⟩, ⟨"2", "B", "M"⟩] } "1").2 = none ∧
    (DeleteBook { books := [⟨"1", "A", "N"⟩, ⟨"2", "B", "M"⟩] } "1").1.books.length + 1
      = (BookStore.mk [⟨"1", "A", "N"⟩, ⟨"2", "B", "M"⟩]).books.length ∧
    FindBookById (DeleteBook { books := [⟨"1", "A", "N"⟩, ⟨"2", "B", "M"⟩] } "1").1 "1" = none :=
  C2_delete_present _ "1" (by decide) (by decide)

/-- C3: for a book whose id is not the id of any record of the store, `AddBook` succeeds
and `FindBookById` of that id on the result returns a book with the same id, author and
name. -/
theorem C3_add_then_find (s : BookStore) (b : Book) (hf : ¬ HasId s b.Id) :
    (AddBook s b).2 = none ∧
    ∃ r, FindBookById (AddBook s b).1 b.Id = some r ∧
      r.Id = b.Id ∧ r.Author = b.Author ∧ r.Name = b.Name := by
  rw [AddBook_fresh s b hf]
  refine ⟨rfl, b, ?_, rfl, rfl, rfl⟩
  exact findLoop_first b.Id s.books b [] (fun x hx hid => hf ⟨x, hx, hid⟩) rfl

/-- Witness for C3: adding a book with the fresh id "2". -/
theorem C3_add_then_find_witness :
    (AddBook { books := [⟨"1", "A", "N"⟩] } ⟨"2", "B", "M"⟩).2 = none ∧
    ∃ r, FindBookById (AddBook { books := [⟨"1", "A", "N"⟩] } ⟨"2", "B", "M"⟩).1 "2" = some r ∧
      r.Id = "2" ∧ r.Author = "B" ∧ r.Name = "M" :=
  C3_add_then_find { books := [⟨"1", "A", "N"⟩] } ⟨"2", "B", "M"⟩ (by decide)

/-- C4: `AddBook` fails exactly when some record already has the book's id; the failure
carries the message "Book with id <id> already exists" and leaves the store unchanged. In
particular, adding the same book twice to a store where its id was fresh succeeds the first
time and fails the second time, the store size staying the same across the second call. -/
theorem C4_add_fails_iff_present (s : BookStore) (b : Book) :
    ((AddBook s b).2 ≠ none ↔ HasId s b.Id) ∧
    ((AddBook s b).2 ≠ none →
      (AddBook s b).2 = some ("Book with id " ++ b.Id ++ " already exists") ∧
      (AddBook s b).1 = s) ∧
    (¬ HasId s b.Id →
      (AddBook s b).2 = none ∧
      (AddBook (AddBook s b).1 b).2 = some ("Book with id " ++ b.Id ++ " already exists") ∧
      (AddBook (AddBook s b).1 b).1.books.length = (AddBook s b).1.books.length) := by
  by_cases hp : HasId s b.Id
  · rw [AddBook_present s b hp]
    simp [hp]
  · rw [AddBook_fresh s b hp]
    have hp2 : HasId { books := s.books ++ [b] } b.Id := ⟨b, by simp, rfl⟩
    rw [AddBook_present _ b hp2]
    simp [hp]

/-- Witness for C4: the book with id "1" added to the empty store, then added again. -/
theorem C4_add_fails_iff_present_witness :
    (AddBook bookStore ⟨"1", "A", "N"⟩).2 = none ∧
    (AddBook (AddBook bookStore ⟨"1", "A", "N"⟩).1 ⟨"1", "A", "N"⟩).2
      = some ("Book with id " ++ "1" ++ " already exists") ∧
    (AddBook (AddBook bookStore ⟨"1", "A", "N"⟩).1 ⟨"1", "A", "N"⟩).1.books.length
      = (AddBook bookStore ⟨"1", "A", "N"⟩).1.books.length :=
  (C4_add_fails_iff_present bookStore ⟨"1", "A", "N"⟩).2.2 (by decide)

/-- C5: when the store holds a record with the book's id, `UpdateBook` succeeds; the
sequence keeps its length, holds the book at the position of the first record whose id was
the book's id, and holds the previous record at every other position. -/
theorem C5_update_in_place (s : BookStore) (b : Book) (hp : HasId s b.Id) :
    (UpdateBook s b).2 = none ∧
    (UpdateBook s b).1.books.length = s.books.length ∧
    ∃ i, i < s.books.length ∧
      (∃ old, s.books[i]? = some old ∧ old.Id = b.Id) ∧
      (∀ j, j < i → ∀ bk, s.books[j]? = some bk → bk.Id ≠ b.Id) ∧
      (UpdateBook s b).1.books[i]? = some b ∧
      ∀ j, j ≠ i → (UpdateBook s b).1.books[j]? = s.books[j]? := by
  rcases store_cases s b.Id with hn | ⟨mid, bk, tail, rfl, hmid, hbk⟩
  · exact absurd hp hn
  · rw [UpdateBook_split b mid bk tail hmid hbk]
    refine ⟨rfl, by simp, mid.length, by simp, ⟨bk, getElem?_at_split mid bk tail, hbk⟩,
      ?_, ?_, ?_⟩
    · intro j hj x hx
      rw [List.getElem?_append_left hj] at hx
      exact hmid x (List.getElem?_mem hx)
    · show ((mid ++ bk :: tail).set mid.length b)[mid.length]? = some b
      rw [set_at_split]
      exact getElem?_at_split mid b tail
    · intro j hj
      exact List.getElem?_set_ne (Ne.symm hj)

/-- Witness for C5: updating id "1" in a store whose first and third records have it. -/
theorem C5_update_in_place_witness :
    (UpdateBook { books := [⟨"1", "A", "N"⟩, ⟨"2", "B", "M"⟩, ⟨"1", "C", "K"⟩] }
      ⟨"1", "X", "Y"⟩).2 = none :=
  (C5_update_in_place { books := [⟨"1", "A", "N"⟩, ⟨"2", "B", "M"⟩, ⟨"1", "C", "K"⟩] }
    ⟨"1", "X", "Y"⟩ (by decide)).1

/-- C6: when no record has the book's id, `UpdateBook` fails with the message
"Book with id <id> not found" and leaves the store unchanged; and `UpdateBook` fails only
in that case. -/
theorem C6_update_absent (s : BookStore) (b : Book) :
    (¬ HasId s b.Id →
      (UpdateBook s b).2 = some ("Book with id " ++ b.Id ++ " not found") ∧
      (UpdateBook s b).1 = s) ∧
    ((UpdateBook s b).2 ≠ none → ¬ HasId s b.Id) := by
  rcases store_cases s b.Id with hn | ⟨mid, bk, tail, rfl, hmid, hbk⟩
  · rw [UpdateBook_absent s b hn]
    simp [hn]
  · rw [UpdateBook_split b mid bk tail hmid hbk]
    have := hasId_of_split b.Id mid bk tail hbk
    simp [this]

/-- Witness for C6: updating the absent id "9". -/
theorem C6_update_absent_witness :
    (UpdateBook { books := [⟨"1", "A", "N"⟩] } ⟨"9", "X", "Y"⟩).2
      = some ("Book with id " ++ "9" ++ " not found") ∧
    (UpdateBook { books := [⟨"1", "A", "N"⟩] } ⟨"9", "X", "Y"⟩).1
      = { books := [⟨"1", "A", "N"⟩] } :=
  (C6_update_absent { books := [⟨"1", "A", "N"⟩] } ⟨"9", "X", "Y"⟩).1 (by decide)

/-- C7: when no record has the id, `DeleteBook` fails with the message
"Book with id <id> not found" and leaves the store unchanged; and `DeleteBook` fails only
in that case. -/
theorem C7_delete_absent (s : BookStore) (id : String) :
    (¬ HasId s id →
      (DeleteBook s id).2 = some ("Book with id " ++ id ++ " not found") ∧
      (DeleteBook s id).1 = s) ∧
    ((DeleteBook s id).2 ≠ none → ¬ HasId s id) := by
  rcases store_cases s id with hn | ⟨mid, bk, tail, rfl, hmid, hbk⟩
  · rw [DeleteBook_absent s id hn]
    simp [hn]
  · rw [DeleteBook_split id mid bk tail hmid hbk]
    have := hasId_of_split id mid bk tail hbk
    simp [this]

/-- Witness for C7: deleting the absent id "9". -/
theorem C7_delete_absent_witness :
    (DeleteBook { books := [⟨"1", "A", "N"⟩] } "9").2
      = some ("Book with id " ++ "9" ++ " not found") ∧
    (DeleteBook { books := [⟨"1", "A", "N"⟩] } "9").1 = { books := [⟨"1", "A", "N"⟩] } :=
  (C7_delete_absent { books := [⟨"1", "A", "N"⟩] } "9").1 (by decide)

/-! ## Path-to-id extraction -/

theorem replaceFirst_go_append (old new rest : List Char) :
    stringsReplaceFirst.go old new (old ++ rest) = new ++ rest := by
  cases old with
  | nil =>
    cases rest with
    | nil => simp [stringsReplaceFirst.go]
    | cons c cs => simp [stringsReplaceFirst.go]
  | cons c cs =>
    have hp : (c :: cs).isPrefixOf (c :: (cs ++ rest)) = true := by
      rw [List.isPrefixOf_iff_prefix]
      exact List.prefix_append (c :: cs) rest
    have hd : List.drop (c :: cs).length (c :: (cs ++ rest)) = rest :=
      List.drop_left (c :: cs) rest
    show stringsReplaceFirst.go (c :: cs) new (c :: (cs ++ rest)) = new ++ rest
    rw [stringsReplaceFirst.go, if_pos hp, hd]

/-- The id read from the path `/book/<id>` is `<id>`. -/
theorem stringsReplaceFirst_book (id : String) :
    stringsReplaceFirst ("/book/" ++ id) "/book/" "" = id := by
  unfold stringsReplaceFirst
  rw [String.data_append, replaceFirst_go_append]
  rfl

/-! ## Handler contracts -/

/-- What `handleGetBook` writes when the id of the path is found. -/
theorem handleGetBook_found (s : BookStore) (w : ResponseWriter) (r : Request) (book : Book)
    (h : FindBookById s (stringsReplaceFirst r.Path "/book/" "") = some book) :
    handleGetBook s w r = (s, (w.WriteHeader StatusOK).Write (Json.book book)) := by
  simp [handleGetBook, h]

/-- A status and one chunk written to a writer that had no status and an empty body. -/
theorem write_after_header (w : ResponseWriter) (code : Nat) (data : Json)
    (hs : w.status = none) (hb : w.body = []) :
    ((w.WriteHeader code).Write data).status = some code ∧
    ((w.WriteHeader code).Write data).body = [data] := by
  simp [ResponseWriter.Write, ResponseWriter.WriteHeader, hs, hb]

/-- C8 as stated fails: a POST of a book whose id "1" is already in the store is answered
with status 400, but the body is not the JSON string "Book with id 1 already exists". -/
theorem C8_post_duplicate_counterexample :
    ¬ ((Logger bookHandler { books := [⟨"1", "A", "N"⟩] } ResponseWriter.fresh
          { Method := "POST", Path := "/book/1", Body := .ok ⟨"1", "A", "N"⟩ }).2.status
        = some 400 ∧
      (Logger bookHandler { books := [⟨"1", "A", "N"⟩] } ResponseWriter.fresh
          { Method := "POST", Path := "/book/1", Body := .ok ⟨"1", "A", "N"⟩ }).2.body
        = [Json.str "Book with id 1 already exists"]) := by
  decide

/-- C8, amended: for every store and every POST to `/book/...` whose body decodes to a book
whose id is already present in the store, the response has status 400 and its body is the
JSON string "Bad request. Book with id <id> already exists". -/
theorem C8_post_duplicate (s : BookStore) (r : Request) (b : Book)
    (hm : r.Method = "POST") (hb : r.Body = .ok b) (hp : HasId s b.Id) :
    (Logger bookHandler s ResponseWriter.fresh r).2.status = some 400 ∧
    (Logger bookHandler s ResponseWriter.fresh r).2.body
      = [Json.str ("Bad request. " ++ ("Book with id " ++ b.Id ++ " already exists"))] := by
  have hr : Logger bookHandler s ResponseWriter.fresh r
      = (s, ((ResponseWriter.fresh.SetHeader "Content-Type" "application/json").WriteHeader
          StatusBadRequest).Write
            (Json.str ("Bad request. " ++ ("Book with id " ++ b.Id ++ " already exists")))) := by
    simp [Logger, bookHandler, hm, handleAddBook, hb, AddBook_present s b hp]
  rw [hr]
  exact write_after_header _ _ _ rfl rfl

/-- Witness for C8 (amended): a POST of a book with the id "1" to a store that holds it. -/
theorem C8_post_duplicate_witness :
    (Logger bookHandler { books := [⟨"1", "A", "N"⟩] } ResponseWriter.fresh
        { Method := "POST", Path := "/book/7", Body := .ok ⟨"1", "Z", "W"⟩ }).2.status
      = some 400 ∧
    (Logger bookHandler { books := [⟨"1", "A", "N"⟩] } ResponseWriter.fresh
        { Method := "POST", Path := "/book/7", Body := .ok ⟨"1", "Z", "W"⟩ }).2.body
      = [Json.str ("Bad request. " ++ ("Book with id " ++ "1" ++ " already exists"))] :=
  C8_post_duplicate { books := [⟨"1", "A", "N"⟩] }
    { Method := "POST", Path := "/book/7", Body := .ok ⟨"1", "Z", "W"⟩ } ⟨"1", "Z", "W"⟩
    rfl rfl (by decide)

/-- C9 as stated fails: DELETE `/book/9` on a store without id "9" is answered with status
400, but the body is not a JSON-encoded plain string. -/
theorem C9_delete_absent_counterexample :
    ¬ ((Logger bookHandler { books := [⟨"1", "A", "N"⟩] } ResponseWriter.fresh
          { Method := "DELETE", Path := "/book/9", Body := .error "EOF" }).2.status = some 400 ∧
      ∃ msg, (Logger bookHandler { books := [⟨"1", "A", "N"⟩] } ResponseWriter.fresh
          { Method := "DELETE", Path := "/book/9", Body := .error "EOF" }).2.body
        = [Json.str msg]) := by
  rintro ⟨-, msg, h⟩
  have hb : (Logger bookHandler { books := [⟨"1", "A", "N"⟩] } ResponseWriter.fresh
      { Method := "DELETE", Path := "/book/9", Body := .error "EOF" }).2.body
      = [Json.resp { Message := "", Error := "Book with id 9 not found" }] := by decide
  rw [hb] at h
  simp at h

/-- C9, amended: for every store and every DELETE `/book/{id}` where no record has that id,
the response has status 400 and its body is the JSON encoding of a `Resp` object whose
`Message` is empty and whose `Error` is "Book with id <id> not found". -/
theorem C9_delete_absent (s : BookStore) (r : Request) (id : String)
    (hm : r.Method = "DELETE") (hpath : r.Path = "/book/" ++ id) (hn : ¬ HasId s id) :
    (Logger bookHandler s ResponseWriter.fresh r).2.status = some 400 ∧
    (Logger bookHandler s ResponseWriter.fresh r).2.body
      = [Json.resp { Message := "", Error := "Book with id " ++ id ++ " not found" }] := by
  have hr : Logger bookHandler s ResponseWriter.fresh r
      = (s, ((ResponseWriter.fresh.SetHeader "Content-Type" "application/json").WriteHeader
          StatusBadRequest).Write
            (Json.resp { Message := "", Error := "Book with id " ++ id ++ " not found" })) := by
    simp [Logger, bookHandler, hm, handleDeleteBook, hpath, stringsReplaceFirst_book,
      DeleteBook_absent s id hn]
  rw [hr]
  exact write_after_header _ _ _ rfl rfl

/-- Witness for C9 (amended): DELETE `/book/9` on a store without id "9". -/
theorem C9_delete_absent_witness :
    (Logger bookHandler { books := [⟨"1", "A", "N"⟩] } ResponseWriter.fresh
        { Method := "DELETE", Path := "/book/" ++ "9", Body := .error "EOF" }).2.status
      = some 400 ∧
    (Logger bookHandler { books := [⟨"1", "A", "N"⟩] } ResponseWriter.fresh
        { Method := "DELETE", Path := "/book/" ++ "9", Body := .error "EOF" }).2.body
      = [Json.resp { Message := "", Error := "Book with id " ++ "9" ++ " not found" }] :=
  C9_delete_absent { books := [⟨"1", "A", "N"⟩] }
    { Method := "DELETE", Path := "/book/" ++ "9", Body := .error "EOF" } "9"
    rfl rfl (by decide)

/-- C10: when the store holds a record with id `p`, a PUT `/book/p` whose body decodes to a
book `b`, whatever `b.Id` is, is answered with status 200 and the book
`{id: p, author: b.author, name: b.name}`; in the resulting store that book stands at the
position of the first record that had id `p`, and the record at every other position is
unchanged. -/
theorem C10_put_uses_path_id (s : BookStore) (r : Request) (p : String) (b : Book)
    (hm : r.Method = "PUT") (hpath : r.Path = "/book/" ++ p) (hb : r.Body = .ok b)
    (hp : HasId s p) :
    (Logger bookHandler s ResponseWriter.fresh r).2.status = some 200 ∧
    (Logger bookHandler s ResponseWriter.fresh r).2.body
      = [Json.book { Id := p, Author := b.Author, Name := b.Name }] ∧
    ∃ i, i < s.books.length ∧
      (∃ old, s.books[i]? = some old ∧ old.Id = p) ∧
      (∀ j, j < i → ∀ bk, s.books[j]? = some bk → bk.Id ≠ p) ∧
      (Logger bookHandler s ResponseWriter.fresh r).1.books[i]?
        = some { Id := p, Author := b.Author, Name := b.Name } ∧
      ∀ j, j ≠ i → (Logger bookHandler s ResponseWriter.fresh r).1.books[j]? = s.books[j]? := by
  rcases store_cases s p with hn | ⟨mid, bk, tail, rfl, hmid, hbk⟩
  · exact absurd hp hn
  · have hu := UpdateBook_split { Id := p, Author := b.Author, Name := b.Name } mid bk tail
      hmid hbk
    have hf : FindBookById ⟨(mid ++ bk :: tail).set mid.length ⟨p, b.Author, b.Name⟩⟩
        (stringsReplaceFirst r.Path "/book/" "")
        = some { Id := p, Author := b.Author, Name := b.Name } := by
      rw [hpath, stringsReplaceFirst_book, set_at_split]
      exact findLoop_first p mid _ tail hmid rfl
    have hr : Logger bookHandler { books := mid ++ bk :: tail } ResponseWriter.fresh r
        = (⟨(mid ++ bk :: tail).set mid.length ⟨p, b.Author, b.Name⟩⟩,
           ((ResponseWriter.fresh.SetHeader "Content-Type" "application/json").WriteHeader
              StatusOK).Write (Json.book { Id := p, Author := b.Author, Name := b.Name })) := by
      have hg := handleGetBook_found _
        (ResponseWriter.fresh.SetHeader "Content-Type" "application/json") r _ hf
      simp only [Logger, bookHandler, hm, handleUpdateBook, hb]
      simp only [hpath, stringsReplaceFirst_book] at hg ⊢
      simp only [hu, set_at_split] at hg ⊢
      exact hg
    rw [hr]
    refine ⟨(write_after_header _ _ _ rfl rfl).1, (write_after_header _ _ _ rfl rfl).2,
      mid.length, by simp, ⟨bk, getElem?_at_split mid bk tail, hbk⟩, ?_, ?_, ?_⟩
    · intro j hj x hx
      rw [List.getElem?_append_left hj] at hx
      exact hmid x (List.getElem?_mem hx)
    · show ((mid ++ bk :: tail).set mid.length _)[mid.length]? = some _
      rw [set_at_split]
      exact getElem?_at_split mid _ tail
    · intro j hj
      exact List.getElem?_set_ne (Ne.symm hj)

/-- Witness for C10: PUT `/book/1` with a body whose id is "2", on a store holding both. -/
theorem C10_put_uses_path_id_witness :
    (Logger bookHandler { books := [⟨"1", "A", "N"⟩, ⟨"2", "B", "M"⟩] } ResponseWriter.fresh
        { Method := "PUT", Path := "/book/" ++ "1", Body := .ok ⟨"2", "X", "Y"⟩ }).2.status
      = some 200 ∧
    (Logger bookHandler { books := [⟨"1", "A", "N"⟩, ⟨"2", "B", "M"⟩] } ResponseWriter.fresh
        { Method := "PUT", Path := "/book/" ++ "1", Body := .ok ⟨"2", "X", "Y"⟩ }).2.body
      = [Json.book { Id := "1", Author := "X", Name := "Y" }] :=
  have h := C10_put_uses_path_id { books := [⟨"1", "A", "N"⟩, ⟨"2", "B", "M"⟩] }
    { Method := "PUT", Path := "/book/" ++ "1", Body := .ok ⟨"2", "X", "Y"⟩ } "1"
    ⟨"2", "X", "Y"⟩ rfl rfl rfl (by decide)
  ⟨h.1, h.2.1⟩

/-! ## Routing -/

/-- A path that starts with `/book/` is `/book/` followed by the rest. -/
theorem book_path_split (path : String) (h : pathStartsWith path "/book/" = true) :
    ∃ id : String, path = "/book/" ++ id := by
  unfold pathStartsWith at h
  rw [List.isPrefixOf_iff_prefix] at h
  obtain ⟨rest, hrest⟩ := h
  refine ⟨String.mk rest, ?_⟩
  apply String.ext
  rw [String.data_append, ← hrest]

/-- What `handleGetBook` writes when the id of the path is not found. -/
theorem handleGetBook_absent (s : BookStore) (w : ResponseWriter) (r : Request)
    (h : FindBookById s (stringsReplaceFirst r.Path "/book/" "") = none) :
    handleGetBook s w r = (s, (w.WriteHeader StatusNotFound).Write
      (Json.str ("Book with id " ++ stringsReplaceFirst r.Path "/book/" "" ++ " not found"))) := by
  simp [handleGetBook, h]

/-! ## Request scenarios and handler behaviour -/

/-- C11: from the empty store, POST `/book/1` with the book {id "1", author "A", name "N"},
then GET `/book/1`, then DELETE `/book/1`, then GET `/book/1` give in order: status 200 with
the full list holding exactly that book; status 200 with that book; status 200 with the
empty list; status 404 with the JSON string "Book with id 1 not found". Each request runs
on the store the previous one left. -/
theorem C11_post_get_delete_get (body : Except String Book) :
    serve bookStore { Method := "POST", Path := "/book/1", Body := .ok ⟨"1", "A", "N"⟩ }
      = some ({ books := [⟨"1", "A", "N"⟩] },
          { header := [("Content-Type", "application/json")], status := some 200,
            body := [Json.books [⟨"1", "A", "N"⟩]] }) ∧
    serve { books := [⟨"1", "A", "N"⟩] } { Method := "GET", Path := "/book/1", Body := body }
      = some ({ books := [⟨"1", "A", "N"⟩] },
          { header := [("Content-Type", "application/json")], status := some 200,
            body := [Json.book ⟨"1", "A", "N"⟩] }) ∧
    serve { books := [⟨"1", "A", "N"⟩] } { Method := "DELETE", Path := "/book/1", Body := body }
      = some ({ books := [] },
          { header := [("Content-Type", "application/json")], status := some 200,
            body := [Json.books []] }) ∧
    serve { books := [] } { Method := "GET", Path := "/book/1", Body := body }
      = some ({ books := [] },
          { header := [("Content-Type", "application/json")], status := some 404,
            body := [Json.str "Book with id 1 not found"] }) := by
  have hget : handler "GET" "/book/1" = some (Logger bookHandler) := by
    unfold handler
    rw [if_neg (by decide), if_neg (by decide), if_neg (by decide), if_neg (by decide),
      if_neg (by decide), if_pos (by decide)]
  have hdel : handler "DELETE" "/book/1" = some (Logger bookHandler) := by
    unfold handler
    rw [if_neg (by decide), if_neg (by decide), if_neg (by decide), if_neg (by decide),
      if_neg (by decide), if_pos (by decide)]
  refine ⟨by decide, ?_, ?_, ?_⟩
  · simp only [serve, hget]; rfl
  · simp only [serve, hdel]; rfl
  · simp only [serve, hget]; rfl

/-- C12: GET `/book/{id}` leaves the store unchanged; it answers status 404 with the JSON
string "Book with id <id> not found" when no record has that id, and otherwise status 200
with the first record of the store that has that id. Stated on the registered handler
`Logger bookHandler`, for every id. -/
theorem C12_get_book (s : BookStore) (r : Request) (id : String)
    (hm : r.Method = "GET") (hpath : r.Path = "/book/" ++ id) :
    ∃ w, Logger bookHandler s ResponseWriter.fresh r = (s, w) ∧
      (¬ HasId s id →
        w.status = some 404 ∧ w.body = [Json.str ("Book with id " ++ id ++ " not found")]) ∧
      (HasId s id →
        w.status = some 200 ∧
        ∃ (i : Nat) (bk : Book), s.books[i]? = some bk ∧ bk.Id = id ∧
          (∀ j, j < i → ∀ x : Book, s.books[j]? = some x → x.Id ≠ id) ∧
          w.body = [Json.book bk]) := by
  have hid : stringsReplaceFirst r.Path "/book/" "" = id := by
    rw [hpath, stringsReplaceFirst_book]
  have hs : Logger bookHandler s ResponseWriter.fresh r
      = handleGetBook s (ResponseWriter.fresh.SetHeader "Content-Type" "application/json")
          r := by
    simp [Logger, bookHandler, hm]
  rcases store_cases s id with hn | ⟨mid, bk, tail, rfl, hmid, hbk⟩
  · have hf : FindBookById s (stringsReplaceFirst r.Path "/book/" "") = none := by
      rw [hid]
      exact (findLoop_eq_none_iff _ _).mpr (fun x hx hx2 => hn ⟨x, hx, hx2⟩)
    rw [hs, handleGetBook_absent s _ r hf, hid]
    refine ⟨_, rfl, fun _ => write_after_header _ _ _ rfl rfl, fun hp => absurd hp hn⟩
  · have hf : FindBookById { books := mid ++ bk :: tail }
        (stringsReplaceFirst r.Path "/book/" "") = some bk := by
      rw [hid]
      exact findLoop_first id mid bk tail hmid hbk
    rw [hs, handleGetBook_found _ _ r bk hf]
    refine ⟨_, rfl, fun hn => absurd (hasId_of_split id mid bk tail hbk) hn, fun _ => ?_⟩
    refine ⟨(write_after_header _ _ _ rfl rfl).1, mid.length, bk,
      getElem?_at_split mid bk tail, hbk, ?_, (write_after_header _ _ _ rfl rfl).2⟩
    intro j hj x hx
    rw [List.getElem?_append_left hj] at hx
    exact hmid x (List.getElem?_mem hx)

/-- Witness for C12: GET `/book/2` on a store whose second record has id "2". -/
theorem C12_get_book_witness :
    ∃ w, Logger bookHandler { books := [⟨"1", "A", "N"⟩, ⟨"2", "B", "M"⟩] }
        ResponseWriter.fresh { Method := "GET", Path := "/book/" ++ "2", Body := .error "EOF" }
      = ({ books := [⟨"1", "A", "N"⟩, ⟨"2", "B", "M"⟩] }, w) :=
  have ⟨w, h, _⟩ := C12_get_book { books := [⟨"1", "A", "N"⟩, ⟨"2", "B", "M"⟩] }
    { Method := "GET", Path := "/book/" ++ "2", Body := .error "EOF" } "2" rfl rfl
  ⟨w, h⟩

/-- C13: the id in the path of a POST is ignored. For every store, every decoded body book
`b` and any two request paths, the registered handler `Logger bookHandler` gives the same
resulting store and the same response for both; and when `b.Id` is not present in the
store, the resulting store is the old sequence with `b` appended at the end and the response
is status 200 with that full new list. -/
theorem C13_post_ignores_path (s : BookStore) (r1 r2 : Request) (b : Book)
    (hm1 : r1.Method = "POST") (hm2 : r2.Method = "POST")
    (hb1 : r1.Body = .ok b) (hb2 : r2.Body = .ok b) :
    Logger bookHandler s ResponseWriter.fresh r1
      = Logger bookHandler s ResponseWriter.fresh r2 ∧
    (¬ HasId s b.Id →
      ∃ w, Logger bookHandler s ResponseWriter.fresh r1 = ({ books := s.books ++ [b] }, w) ∧
        w.status = some 200 ∧ w.body = [Json.books (s.books ++ [b])]) := by
  have h1 : Logger bookHandler s ResponseWriter.fresh r1 = handleAddBook s
      (ResponseWriter.fresh.SetHeader "Content-Type" "application/json") r1 := by
    simp [Logger, bookHandler, hm1]
  have h2 : Logger bookHandler s ResponseWriter.fresh r2 = handleAddBook s
      (ResponseWriter.fresh.SetHeader "Content-Type" "application/json") r2 := by
    simp [Logger, bookHandler, hm2]
  refine ⟨?_, fun hf => ?_⟩
  · rw [h1, h2]
    simp [handleAddBook, hb1, hb2, booksHandler]
  · rw [h1]
    refine ⟨_, ?_, write_after_header
      (ResponseWriter.fresh.SetHeader "Content-Type" "application/json") StatusOK
      (Json.books (s.books ++ [b])) rfl rfl⟩
    simp [handleAddBook, hb1, AddBook_fresh s b hf, booksHandler, GetBooks]

/-- Witness for C13: the same book posted with the paths `/book/7` and `/book/x/y`. -/
theorem C13_post_ignores_path_witness :
    Logger bookHandler { books := [⟨"1", "A", "N"⟩] } ResponseWriter.fresh
        { Method := "POST", Path := "/book/7", Body := .ok ⟨"2", "B", "M"⟩ }
      = Logger bookHandler { books := [⟨"1", "A", "N"⟩] } ResponseWriter.fresh
        { Method := "POST", Path := "/book/x/y", Body := .ok ⟨"2", "B", "M"⟩ } :=
  (C13_post_ignores_path { books := [⟨"1", "A", "N"⟩] }
    { Method := "POST", Path := "/book/7", Body := .ok ⟨"2", "B", "M"⟩ }
    { Method := "POST", Path := "/book/x/y", Body := .ok ⟨"2", "B", "M"⟩ }
    ⟨"2", "B", "M"⟩ rfl rfl rfl rfl).1

/-- C14: for a request to `/book/...` whose method is none of GET, POST, PUT, DELETE, the
handler writes no status and no body, and the store is unchanged: `bookHandler` returns the
store and the response writer as it got them, also behind `Logger`, which sets the content
type only. -/
theorem C14_other_method_silent (s : BookStore) (w : ResponseWriter) (r : Request)
    (hget : r.Method ≠ "GET") (hpost : r.Method ≠ "POST")
    (hput : r.Method ≠ "PUT") (hdel : r.Method ≠ "DELETE") :
    bookHandler s w r = (s, w) ∧
    (Logger bookHandler s ResponseWriter.fresh r).1 = s ∧
    (Logger bookHandler s ResponseWriter.fresh r).2.status = none ∧
    (Logger bookHandler s ResponseWriter.fresh r).2.body = [] := by
  have hb : ∀ w0, bookHandler s w0 r = (s, w0) := by
    intro w0
    simp [bookHandler, hget, hpost, hput, hdel]
  refine ⟨hb w, ?_, ?_, ?_⟩ <;> simp [Logger, hb] <;> rfl

/-- Witness for C14: a PATCH request to `/book/1`. -/
theorem C14_other_method_silent_witness :
    bookHandler { books := [⟨"1", "A", "N"⟩] } ResponseWriter.fresh
        { Method := "PATCH", Path := "/book/1", Body := .ok ⟨"1", "X", "Y"⟩ }
      = ({ books := [⟨"1", "A", "N"⟩] }, ResponseWriter.fresh) :=
  (C14_other_method_silent { books := [⟨"1", "A", "N"⟩] } ResponseWriter.fresh
    { Method := "PATCH", Path := "/book/1", Body := .ok ⟨"1", "X", "Y"⟩ }
    (by decide) (by decide) (by decide) (by decide)).1

/-- C15: `FindBookById` returns not-found exactly when no record of the store has the id,
and otherwise returns the record with that id that comes first in the sequence. -/
theorem C15_find_first (s : BookStore) (id : String) :
    (FindBookById s id = none ↔ ¬ HasId s id) ∧
    (HasId s id →
      ∃ (i : Nat) (bk : Book), FindBookById s id = some bk ∧ s.books[i]? = some bk ∧ bk.Id = id ∧
        ∀ j, j < i → ∀ x : Book, s.books[j]? = some x → x.Id ≠ id) := by
  rcases store_cases s id with hn | ⟨mid, bk, tail, rfl, hmid, hbk⟩
  · have hf : FindBookById s id = none :=
      (findLoop_eq_none_iff _ _).mpr (fun x hx hx2 => hn ⟨x, hx, hx2⟩)
    exact ⟨by simp [hf, hn], fun hp => absurd hp hn⟩
  · have hf : FindBookById { books := mid ++ bk :: tail } id = some bk :=
      findLoop_first id mid bk tail hmid hbk
    have hp := hasId_of_split id mid bk tail hbk
    refine ⟨by simp [hf, hp], fun _ => ⟨mid.length, bk, hf, getElem?_at_split mid bk tail,
      hbk, ?_⟩⟩
    intro j hj x hx
    rw [List.getElem?_append_left hj] at hx
    exact hmid x (List.getElem?_mem hx)

/-- Witness for C15: with two records of id "1", the earlier one is returned. -/
theorem C15_find_first_witness :
    ∃ (i : Nat) (bk : Book), FindBookById { books := [⟨"2", "B", "M"⟩, ⟨"1", "A", "N"⟩, ⟨"1", "C", "K"⟩] } "1"
        = some bk ∧
      (BookStore.mk [⟨"2", "B", "M"⟩, ⟨"1", "A", "N"⟩, ⟨"1", "C", "K"⟩]).books[i]? = some bk ∧
      bk.Id = "1" ∧
      ∀ j, j < i → ∀ x : Book,
        (BookStore.mk [⟨"2", "B", "M"⟩, ⟨"1", "A", "N"⟩, ⟨"1", "C", "K"⟩]).books[j]? = some x →
        x.Id ≠ "1" :=
  (C15_find_first { books := [⟨"2", "B", "M"⟩, ⟨"1", "A", "N"⟩, ⟨"1", "C", "K"⟩] } "1").2
    (by decide)

/-! ## Path ids, deletion order, atomicity -/

/-- C16: for a request path that starts with `/book/`, the id the GET, PUT and DELETE
handlers extract is the path with exactly that one leading `/book/` removed and everything
after it kept verbatim: the handlers look up, delete and update under that id; the path
`/book/x/book/y` gives the id `x/book/y`, and the path `/book/` gives the empty id. -/
theorem C16_path_id (r : Request) (h : pathStartsWith r.Path "/book/" = true) :
    (∃ rest : String, r.Path = "/book/" ++ rest ∧
      stringsReplaceFirst r.Path "/book/" "" = rest ∧
      (∀ s w, handleGetBook s w r =
        match FindBookById s rest with
        | none => (s, (w.WriteHeader 404).Write (Json.str ("Book with id " ++ rest ++ " not found")))
        | some bk => (s, (w.WriteHeader 200).Write (Json.book bk))) ∧
      (∀ s w, handleDeleteBook s w r =
        match DeleteBook s rest with
        | (s1, some err) => (s1, (w.WriteHeader 400).Write (Json.resp ⟨"", err⟩))
        | (s1, none) => booksHandler s1 w r) ∧
      (∀ s w b, r.Body = .ok b → handleUpdateBook s w r =
        match UpdateBook s ⟨rest, b.Author, b.Name⟩ with
        | (s1, some err) => (s1, (w.WriteHeader 400).Write (Json.str err))
        | (s1, none) => handleGetBook s1 w r)) ∧
    stringsReplaceFirst "/book/x/book/y" "/book/" "" = "x/book/y" ∧
    stringsReplaceFirst "/book/" "/book/" "" = "" := by
  refine ⟨?_, by decide, by decide⟩
  obtain ⟨rest, hrest⟩ := book_path_split r.Path h
  have hid : stringsReplaceFirst r.Path "/book/" "" = rest := by
    rw [hrest, stringsReplaceFirst_book]
  refine ⟨rest, hrest, hid, ?_, ?_, ?_⟩
  · intro s w
    simp only [handleGetBook, hid]
    rfl
  · intro s w
    simp only [handleDeleteBook, hid]
    rfl
  · intro s w b hb
    simp only [handleUpdateBook, hid, hb]
    rfl

/-- Witness for C16: the path `/book/a/b` starts with `/book/`. -/
theorem C16_path_id_witness :
    ∃ rest : String, "/book/a/b" = "/book/" ++ rest ∧
      stringsReplaceFirst "/book/a/b" "/book/" "" = rest :=
  have ⟨⟨rest, h1, h2, _⟩, _⟩ := C16_path_id
    { Method := "GET", Path := "/book/a/b", Body := .error "EOF" } (by decide)
  ⟨rest, h1, h2⟩

theorem firstIndexOf_split (id : String) (mid : List Book) (bk : Book) (tail : List Book)
    (hmid : ∀ x ∈ mid, x.Id ≠ id) (hbk : bk.Id = id) :
    firstIndexOf id (mid ++ bk :: tail) = mid.length := by
  induction mid with
  | nil => simp [firstIndexOf, hbk]
  | cons a mid ih =>
    have ha : a.Id ≠ id := hmid a (List.mem_cons_self _ _)
    simp [firstIndexOf, ha, ih (fun x hx => hmid x (List.mem_cons_of_mem _ hx))]

theorem shiftLeftRemove_split (mid : List Book) (bk : Book) (tail : List Book) :
    shiftLeftRemove (mid ++ bk :: tail) mid.length = mid ++ tail := by
  induction mid with
  | nil => simp [shiftLeftRemove]
  | cons a mid ih => simp [shiftLeftRemove, ih]

/-- C17: `DeleteBook` is order-preserving. For an id present in the store, the sequence
after `DeleteBook` equals the naive shift-left removal at the index of the first record
with that id: the records before that index stay where they were, and every later record
moves one place to the left, in the original relative order. -/
theorem C17_delete_shift_left (s : BookStore) (id : String) (hp : HasId s id) :
    (DeleteBook s id).1.books = shiftLeftRemove s.books (firstIndexOf id s.books) ∧
    (∃ bk : Book, s.books[firstIndexOf id s.books]? = some bk ∧ bk.Id = id) ∧
    (∀ j, j < firstIndexOf id s.books → ∀ x : Book, s.books[j]? = some x → x.Id ≠ id) ∧
    (∀ j, j < firstIndexOf id s.books → (DeleteBook s id).1.books[j]? = s.books[j]?) ∧
    (∀ j, firstIndexOf id s.books ≤ j → (DeleteBook s id).1.books[j]? = s.books[j + 1]?) := by
  rcases store_cases s id with hn | ⟨mid, bk, tail, rfl, hmid, hbk⟩
  · exact absurd hp hn
  · rw [DeleteBook_split id mid bk tail hmid hbk]
    simp only [firstIndexOf_split id mid bk tail hmid hbk, shiftLeftRemove_split]
    refine ⟨trivial, ⟨bk, getElem?_at_split mid bk tail, hbk⟩, ?_, ?_, ?_⟩
    · intro j hj x hx
      rw [List.getElem?_append_left hj] at hx
      exact hmid x (List.getElem?_mem hx)
    · intro j hj
      rw [List.getElem?_append_left hj, List.getElem?_append_left hj]
    · intro j hj
      rw [List.getElem?_append_right hj, List.getElem?_append_right (by omega)]
      have e : j + 1 - mid.length = (j - mid.length) + 1 := by omega
      rw [e, List.getElem?_cons_succ]

/-- Witness for C17: deleting id "1" from a store whose second and fourth records have it. -/
theorem C17_delete_shift_left_witness :
    (DeleteBook { books := [⟨"0", "Z", "W"⟩, ⟨"1", "A", "N"⟩, ⟨"2", "B", "M"⟩, ⟨"1", "C", "K"⟩] }
        "1").1.books
      = shiftLeftRemove [⟨"0", "Z", "W"⟩, ⟨"1", "A", "N"⟩, ⟨"2", "B", "M"⟩, ⟨"1", "C", "K"⟩]
          (firstIndexOf "1"
            [⟨"0", "Z", "W"⟩, ⟨"1", "A", "N"⟩, ⟨"2", "B", "M"⟩, ⟨"1", "C", "K"⟩]) :=
  (C17_delete_shift_left
    { books := [⟨"0", "Z", "W"⟩, ⟨"1", "A", "N"⟩, ⟨"2", "B", "M"⟩, ⟨"1", "C", "K"⟩] } "1"
    (by decide)).1

/-- `handleGetBook` never changes the store. -/
theorem handleGetBook_store (s : BookStore) (w : ResponseWriter) (r : Request) :
    (handleGetBook s w r).1 = s := by
  cases h : FindBookById s (stringsReplaceFirst r.Path "/book/" "") with
  | none => rw [handleGetBook_absent s w r h]
  | some b => rw [handleGetBook_found s w r b h]

/-- The status after `WriteHeader` and `Write` on a writer without a status. -/
theorem status_after_write (w : ResponseWriter) (code : Nat) (data : Json)
    (hs : w.status = none) : ((w.WriteHeader code).Write data).status = some code := by
  simp [ResponseWriter.Write, ResponseWriter.WriteHeader, hs]

/-- A successful add, delete or update is answered with status 200, so a response with
status 400 or 404 from the book handler comes with an unchanged store. -/
theorem bookHandler_atomic (s : BookStore) (w : ResponseWriter) (r : Request)
    (hs : w.status = none) :
    (((bookHandler s w r).2.status = some 400 ∨ (bookHandler s w r).2.status = some 404) →
      (bookHandler s w r).1 = s) ∧
    (r.Method = "GET" → (bookHandler s w r).1 = s) := by
  by_cases hget : r.Method = "GET"
  · have : bookHandler s w r = handleGetBook s w r := by simp [bookHandler, hget]
    rw [this]
    exact ⟨fun _ => handleGetBook_store s w r, fun _ => handleGetBook_store s w r⟩
  refine ⟨?_, fun h => absurd h hget⟩
  by_cases hpost : r.Method = "POST"
  · have hh : bookHandler s w r = handleAddBook s w r := by simp [bookHandler, hpost]
    rw [hh]
    cases hb : r.Body with
    | error err => intro _; simp [handleAddBook, hb]
    | ok b =>
      by_cases hp : HasId s b.Id
      · intro _; simp [handleAddBook, hb, AddBook_present s b hp]
      · have hr : handleAddBook s w r
            = ({ books := s.books ++ [b] },
                (w.WriteHeader StatusOK).Write (Json.books (s.books ++ [b]))) := by
          simp [handleAddBook, hb, AddBook_fresh s b hp, booksHandler, GetBooks]
        rw [hr]
        simp [status_after_write w _ _ hs, StatusOK]
  by_cases hdel : r.Method = "DELETE"
  · have hh : bookHandler s w r = handleDeleteBook s w r := by
      simp [bookHandler, hdel]
    rw [hh]
    rcases store_cases s (stringsReplaceFirst r.Path "/book/" "") with
      hn | ⟨mid, bk, tail, rfl, hmid, hbk⟩
    · intro _; simp [handleDeleteBook, DeleteBook_absent s _ hn]
    · have hr : handleDeleteBook { books := mid ++ bk :: tail } w r
          = ({ books := mid ++ tail },
              (w.WriteHeader StatusOK).Write (Json.books (mid ++ tail))) := by
        simp [handleDeleteBook, DeleteBook_split _ mid bk tail hmid hbk, booksHandler, GetBooks]
      rw [hr]
      simp [status_after_write w _ _ hs, StatusOK]
  by_cases hput : r.Method = "PUT"
  · have hh : bookHandler s w r = handleUpdateBook s w r := by
      simp [bookHandler, hput]
    rw [hh]
    cases hb : r.Body with
    | error err => intro _; simp [handleUpdateBook, hb]
    | ok b =>
      rcases store_cases s (stringsReplaceFirst r.Path "/book/" "") with
        hn | ⟨mid, bk, tail, rfl, hmid, hbk⟩
      · intro _
        have hu := UpdateBook_absent s
          ⟨stringsReplaceFirst r.Path "/book/" "", b.Author, b.Name⟩ hn
        simp only [handleUpdateBook, hb, hu]
      · have hu := UpdateBook_split
          ⟨stringsReplaceFirst r.Path "/book/" "", b.Author, b.Name⟩ mid bk tail hmid hbk
        have hf : FindBookById
            ⟨mid ++ ⟨stringsReplaceFirst r.Path "/book/" "", b.Author, b.Name⟩ :: tail⟩
            (stringsReplaceFirst r.Path "/book/" "")
            = some ⟨stringsReplaceFirst r.Path "/book/" "", b.Author, b.Name⟩ :=
          findLoop_first _ mid _ tail hmid rfl
        have hg := handleGetBook_found _ w r _ hf
        have hr : handleUpdateBook { books := mid ++ bk :: tail } w r
            = (⟨mid ++ ⟨stringsReplaceFirst r.Path "/book/" "", b.Author, b.Name⟩ :: tail⟩,
                (w.WriteHeader StatusOK).Write
                  (Json.book ⟨stringsReplaceFirst r.Path "/book/" "", b.Author, b.Name⟩)) := by
          rw [set_at_split] at hu
          simp only [handleUpdateBook, hb, hu]
          exact hg
        rw [hr]
        simp [status_after_write w _ _ hs, StatusOK]
  · intro _
    simp [bookHandler, hget, hpost, hdel, hput]

/-- The handlers the mux can pick. -/
theorem handler_cases (method path : String) (h : HandlerFunc)
    (hh : handler method path = some h) :
    h = Logger helloHandler ∨ h = Logger bookHandler ∨ h = Logger booksHandler := by
  unfold handler at hh
  split_ifs at hh <;> simp at hh <;> simp [← hh]

/-- C18: requests are atomic with respect to the store. For every request the mux routes
to `/hello`, `/books/` or `/book/...`, and for every run of one of the three registered
handlers on any request, a response with status 400 or 404 comes with a store equal to the
store before the request; and every GET request leaves the store unchanged whatever its
status. -/
theorem C18_requests_atomic (s : BookStore) (r : Request) (res : BookStore × ResponseWriter)
    (h : serve s r = some res ∨ res = Logger helloHandler s ResponseWriter.fresh r ∨
      res = Logger booksHandler s ResponseWriter.fresh r ∨
      res = Logger bookHandler s ResponseWriter.fresh r) :
    ((res.2.status = some 400 ∨ res.2.status = some 404) → res.1 = s) ∧
    (r.Method = "GET" → res.1 = s) := by
  have key : res = Logger helloHandler s ResponseWriter.fresh r ∨
      res = Logger booksHandler s ResponseWriter.fresh r ∨
      res = Logger bookHandler s ResponseWriter.fresh r := by
    rcases h with h | h
    · unfold serve at h
      cases hh : handler r.Method r.Path with
      | none => simp [hh] at h
      | some f =>
        rw [hh] at h
        simp only [Option.map_some', Option.some.injEq] at h
        rcases handler_cases r.Method r.Path f hh with rfl | rfl | rfl
        · exact Or.inl h.symm
        · exact Or.inr (Or.inr h.symm)
        · exact Or.inr (Or.inl h.symm)
    · exact h
  rcases key with rfl | rfl | rfl
  · exact ⟨fun _ => rfl, fun _ => rfl⟩
  · exact ⟨fun _ => rfl, fun _ => rfl⟩
  · exact bookHandler_atomic s _ r rfl

/-- Witness for C18: a PUT to `/book/9` on a store without id "9" is answered 400 and the
store is the one before the request. -/
theorem C18_requests_atomic_witness :
    serve { books := [⟨"1", "A", "N"⟩] }
        { Method := "PUT", Path := "/book/9", Body := .ok ⟨"3", "X", "Y"⟩ }
      = some ({ books := [⟨"1", "A", "N"⟩] },
          { header := [("Content-Type", "application/json")], status := some 400,
            body := [Json.str "Book with id 9 not found"] }) ∧
    (({ books := [⟨"1", "A", "N"⟩] },
        { header := [("Content-Type", "application/json")], status := some 400,
          body := [Json.str "Book with id 9 not found"] }) : BookStore × ResponseWriter).1
      = { books := [⟨"1", "A", "N"⟩] } :=
  ⟨by decide,
    (C18_requests_atomic { books := [⟨"1", "A", "N"⟩] }
      { Method := "PUT", Path := "/book/9", Body := .ok ⟨"3", "X", "Y"⟩ }
      ({ books := [⟨"1", "A", "N"⟩] },
        { header := [("Content-Type", "application/json")], status := some 400,
          body := [Json.str "Book with id 9 not found"] })
      (Or.inl (by decide))).1 (Or.inl rfl)⟩

end GoCrudApp
